import Mathlib

/-!
Verification development for the Wanderlight client-side script
(`src/script.js`): a shallow embedding of its DOM-event handlers —
header scroll state, mobile-menu control, debounced scroll handling,
active-link highlighting, scroll-reveal observation, the statistics
counter animation, and contact-form validation — together with proofs
of the behavioural properties stated in the specification.
-/

namespace Wanderlight

/-! ## DOM `classList` model

An element's class list is a list of class-name strings.
`classList.add` appends the class when absent (a no-op when present);
`classList.remove` deletes every occurrence; `classList.contains`
tests membership.  -/

def classAdd (cs : List String) (c : String) : List String :=
  if c ∈ cs then cs else cs ++ [c]

def classRemove (cs : List String) (c : String) : List String :=
  cs.filter (fun x => x ≠ c)

def classContains (cs : List String) (c : String) : Bool :=
  cs.contains c

theorem classContains_iff (cs : List String) (c : String) :
    classContains cs c = true ↔ c ∈ cs :=
  List.elem_iff

theorem classContains_classAdd_self (cs : List String) (c : String) :
    classContains (classAdd cs c) c = true := by
  rw [classContains_iff]
  simp only [classAdd]
  split
  · assumption
  · simp

theorem classContains_classRemove_self (cs : List String) (c : String) :
    classContains (classRemove cs c) c = false := by
  rw [Bool.eq_false_iff, ne_eq, classContains_iff]
  simp [classRemove, List.mem_filter]

theorem classRemove_of_not_contains (cs : List String) (c : String)
    (h : classContains cs c = false) : classRemove cs c = cs := by
  rw [Bool.eq_false_iff, ne_eq, classContains_iff] at h
  simp only [classRemove]
  exact List.filter_eq_self.mpr (fun x hx => by
    simp only [ne_eq, decide_eq_true_eq]
    rintro rfl; exact h hx)

/-! ## Configuration (`config` object, script.js lines 29–34) -/

def scrollThreshold : Nat := 100

def animationDuration : Nat := 600

def countAnimationDuration : ℚ := 2000

def intersectionThreshold : ℚ := 1 / 10

/-! ## Header scroll effect (`handleHeaderScroll`, lines 109–115)

The handler reads `window.scrollY` and adds the class `"scrolled"` to
the header when the offset is strictly greater than
`config.scrollThreshold`, removing it otherwise.  The scroll offset is
a non-negative pixel count, modelled as `Nat`.  -/

def handleHeaderScroll (scrollY : Nat) (headerClasses : List String) :
    List String :=
  if scrollY > scrollThreshold then
    classAdd headerClasses "scrolled"
  else
    classRemove headerClasses "scrolled"

/-- Claim C8: after the header scroll handler runs, the header carries the
`"scrolled"` class iff the scroll offset is strictly greater than the
100px threshold; for every offset ≤ 100 the class is absent — a single
cutoff in both directions, with no hysteresis. -/
theorem handleHeaderScroll_scrolled_iff (scrollY : Nat)
    (headerClasses : List String) :
    classContains (handleHeaderScroll scrollY headerClasses) "scrolled" = true
      ↔ scrollY > 100 := by
  unfold handleHeaderScroll scrollThreshold
  by_cases h : scrollY > 100
  · simp [h, classContains_classAdd_self]
  · simp [h, classContains_classRemove_self]

/-! ## Mobile navigation (`initMobileNav` / `closeMobileMenu`, lines 120–159)

The menu state consists of the nav-menu element's class list (the
class `"open"` encodes the open flag), the toggle button's
`aria-expanded` attribute, and the body element's class list (the
class `"menu-open"` is the scroll lock).  -/

structure MenuState where
  navMenuClasses : List String
  ariaExpanded : String
  bodyClasses : List String
deriving DecidableEq, Repr

/-- Source `closeMobileMenu` (lines 155–159): remove `"open"` from the nav menu,
set `aria-expanded` to `"false"`, remove `"menu-open"` from the body. -/
def closeMobileMenu (s : MenuState) : MenuState :=
  { navMenuClasses := classRemove s.navMenuClasses "open"
    ariaExpanded := "false"
    bodyClasses := classRemove s.bodyClasses "menu-open" }

/-- Source `toggleMobileMenu` (lines 149–153): `classList.toggle` flips the
presence of `"open"`, and the resulting boolean drives the attribute and
the body class. -/
def toggleMobileMenu (s : MenuState) : MenuState :=
  if classContains s.navMenuClasses "open" then
    { navMenuClasses := classRemove s.navMenuClasses "open"
      ariaExpanded := "false"
      bodyClasses := classRemove s.bodyClasses "menu-open" }
  else
    { navMenuClasses := classAdd s.navMenuClasses "open"
      ariaExpanded := "true"
      bodyClasses := classAdd s.bodyClasses "menu-open" }

/-- The Escape-key handler (lines 133–137): close the menu only when the
nav menu currently has the `"open"` class. -/
def escapeKeydown (s : MenuState) : MenuState :=
  if classContains s.navMenuClasses "open" then closeMobileMenu s else s

/-- A menu state is closed when the `"open"` class, the scroll lock and
the expanded attribute are all cleared. -/
def menuClosed (s : MenuState) : Prop :=
  classContains s.navMenuClasses "open" = false ∧
  s.ariaExpanded = "false" ∧
  classContains s.bodyClasses "menu-open" = false

instance (s : MenuState) : Decidable (menuClosed s) := by
  unfold menuClosed; infer_instance

/-- Claim C6: the menu close operation is idempotent — applying
`closeMobileMenu` to an already-closed menu leaves the state exactly
unchanged (still no `"open"` class, `aria-expanded` `"false"`, no body
scroll-lock class); in particular pressing Escape twice while the menu
is already closed leaves the menu closed, since the Escape handler only
acts when the menu is open. -/
theorem closeMobileMenu_idempotent_on_closed (s : MenuState)
    (h : menuClosed s) :
    closeMobileMenu s = s ∧
    escapeKeydown (escapeKeydown s) = s ∧
    menuClosed (escapeKeydown (escapeKeydown s)) := by
  obtain ⟨h1, h2, h3⟩ := h
  have hclose : closeMobileMenu s = s := by
    unfold closeMobileMenu
    rw [classRemove_of_not_contains _ _ h1, classRemove_of_not_contains _ _ h3]
    cases s; simp_all
  have hesc : escapeKeydown s = s := by
    unfold escapeKeydown
    rw [h1]; simp
  refine ⟨hclose, ?_, ?_⟩
  · rw [hesc, hesc]
  · rw [hesc, hesc]; exact ⟨h1, h2, h3⟩

/-- Witness for C6: a concrete already-closed menu state is a fixed point
of `closeMobileMenu` and of two Escape presses. -/
theorem closeMobileMenu_idempotent_on_closed_witness :
    closeMobileMenu ⟨["nav__menu"], "false", ["page"]⟩ =
        (⟨["nav__menu"], "false", ["page"]⟩ : MenuState) ∧
    escapeKeydown (escapeKeydown ⟨["nav__menu"], "false", ["page"]⟩) =
        (⟨["nav__menu"], "false", ["page"]⟩ : MenuState) ∧
    menuClosed (escapeKeydown (escapeKeydown
        ⟨["nav__menu"], "false", ["page"]⟩)) :=
  closeMobileMenu_idempotent_on_closed ⟨["nav__menu"], "false", ["page"]⟩
    (by decide)

/-! ## Debounce (`debounce`, lines 46–56)

`debounce(func, wait)` keeps one pending timer.  Each call clears the
pending timer and schedules `later` — which invokes `func` with the
call's arguments — `wait` milliseconds later.  A pending invocation
therefore fires at `t + wait` unless another call arrives strictly
before that instant (a call at exactly the fire time is processed after
the already-due timer).

`debounceRun wait calls` computes, for a time-ordered list of calls
`(timestamp, args)`, the list of actual invocations of `func` as
`(fire time, args)` pairs.  -/

def debounceRun {α : Type} (wait : Nat) : List (Nat × α) → List (Nat × α)
  | [] => []
  | [(t, a)] => [(t + wait, a)]
  | (t, a) :: (t', b) :: rest =>
      if t' < t + wait then
        debounceRun wait ((t', b) :: rest)
      else
        (t + wait, a) :: debounceRun wait ((t', b) :: rest)

/-- A burst: every call arrives within `wait` of the previous one
(strictly before the previous call's timer would fire). -/
def isBurst {α : Type} (wait : Nat) (calls : List (Nat × α)) : Prop :=
  List.Chain' (fun p q => q.1 < p.1 + wait) calls

instance {α : Type} [DecidableEq α] (wait : Nat) (calls : List (Nat × α)) :
    Decidable (isBurst wait calls) :=
  inferInstanceAs (Decidable (List.Chain' _ calls))

/-- Claim C3: the debounced wrapper collapses any burst of calls — each
arriving within `wait` of the previous — into exactly one invocation of
the handler, which fires `wait` after the last call of the burst and
carries the last call's arguments (trailing edge, last-writer-wins:
each new call cancels the previously pending invocation). -/
theorem debounceRun_burst {α : Type} (wait : Nat) (calls : List (Nat × α))
    (hne : calls ≠ []) (hburst : isBurst wait calls) :
    debounceRun wait calls =
      [((calls.getLast hne).1 + wait, (calls.getLast hne).2)] := by
  induction calls with
  | nil => exact absurd rfl hne
  | cons hd tl ih =>
      cases tl with
      | nil => simp [debounceRun]
      | cons hd' tl' =>
          obtain ⟨t, a⟩ := hd
          obtain ⟨t', b⟩ := hd'
          unfold isBurst at hburst
          rw [List.chain'_cons] at hburst
          obtain ⟨hlt, hrest⟩ := hburst
          have hne' : (t', b) :: tl' ≠ [] := by simp
          have hstep : debounceRun wait ((t, a) :: (t', b) :: tl') =
              debounceRun wait ((t', b) :: tl') := by
            simp only [debounceRun]
            exact if_pos hlt
          rw [hstep, ih hne' hrest, List.getLast_cons hne']

/-- Witness for C3: a concrete burst of three calls with wait 50 —
gaps 30 and 40, both under the wait — produces the single invocation
`(120, 3)`: 50 after the last call, with the last call's argument. -/
theorem debounceRun_burst_witness :
    debounceRun 50 [(0, 1), (30, 2), (70, 3)] = [(120, 3)] := by
  have h := debounceRun_burst 50 [(0, (1 : Nat)), (30, 2), (70, 3)]
    (by decide) (by simp [isBurst, List.chain'_cons])
  simpa using h

/-! ## Counter animation (`animateCount` / `updateCount`, lines 81–104)

Each animation frame computes `elapsed = currentTime - startTime`,
clamps `progress = min (elapsed / duration) 1`, applies the cubic
ease-out curve `1 - (1 - progress)^3`, and writes
`floor(start + (target - start) * easeProgress)` (with `start = 0`) to
the element's text.  While `progress < 1` the next frame is scheduled;
on the frame where `progress` reaches 1 the handler overwrites the text
with `target` itself.  Times and the easing arithmetic are modelled
over `ℚ`; the written value of a frame is the text content the element
holds after that frame's handler returns.  -/

def easeOutCubic (p : ℚ) : ℚ := 1 - (1 - p) ^ 3

def animProgress (elapsed duration : ℚ) : ℚ := min (elapsed / duration) 1

def frameValue (target : ℤ) (elapsed duration : ℚ) : ℤ :=
  ⌊(0 : ℚ) + ((target : ℚ) - 0) * easeOutCubic (animProgress elapsed duration)⌋

def frameText (target : ℤ) (elapsed duration : ℚ) : ℤ :=
  if animProgress elapsed duration < 1 then frameValue target elapsed duration
  else target

/-- The values written over a sequence of animation-frame timestamps. -/
def countWrites (target : ℤ) (startTime duration : ℚ) (frames : List ℚ) :
    List ℤ :=
  frames.map fun t => frameText target (t - startTime) duration

theorem animProgress_le_one (e d : ℚ) : animProgress e d ≤ 1 :=
  min_le_right _ _

theorem easeOutCubic_one : easeOutCubic 1 = 1 := by
  norm_num [easeOutCubic]

theorem easeOutCubic_mono {p q : ℚ} (hq : q ≤ 1) (hpq : p ≤ q) :
    easeOutCubic p ≤ easeOutCubic q := by
  unfold easeOutCubic
  have h1 : (0 : ℚ) ≤ 1 - q := by linarith
  have h2 : 1 - q ≤ 1 - p := by linarith
  have h3 := pow_le_pow_left₀ h1 h2 3
  linarith

theorem easeOutCubic_le_one {p : ℚ} (hp : p ≤ 1) : easeOutCubic p ≤ 1 := by
  unfold easeOutCubic
  have : (0 : ℚ) ≤ (1 - p) ^ 3 := pow_nonneg (by linarith) 3
  linarith

theorem animProgress_mono {e e' : ℚ} (d : ℚ) (hd : 0 < d) (h : e ≤ e') :
    animProgress e d ≤ animProgress e' d := by
  unfold animProgress
  gcongr

theorem animProgress_eq_one {e d : ℚ} (hd : 0 < d) (h : d ≤ e) :
    animProgress e d = 1 := by
  unfold animProgress
  have : (1 : ℚ) ≤ e / d := (one_le_div hd).mpr h
  exact min_eq_right this

theorem frameValue_at_one {target : ℤ} {e d : ℚ}
    (h : animProgress e d = 1) : frameValue target e d = target := by
  unfold frameValue
  rw [h, easeOutCubic_one]
  simp

theorem frameText_eq_frameValue (target : ℤ) (e d : ℚ) :
    frameText target e d = frameValue target e d := by
  unfold frameText
  split
  · rfl
  · next h =>
      have h1 : animProgress e d = 1 :=
        le_antisymm (animProgress_le_one e d) (not_lt.mp h)
      rw [frameValue_at_one h1]

theorem frameValue_le_target {target : ℤ} (ht : 0 ≤ target) (e d : ℚ) :
    frameValue target e d ≤ target := by
  unfold frameValue
  have h1 : ((target : ℚ) - 0) * easeOutCubic (animProgress e d) ≤
      (target : ℚ) := by
    have := mul_le_mul_of_nonneg_left
      (easeOutCubic_le_one (animProgress_le_one e d))
      (by exact_mod_cast ht : (0 : ℚ) ≤ (target : ℚ))
    simpa using this
  calc ⌊(0 : ℚ) + ((target : ℚ) - 0) * easeOutCubic (animProgress e d)⌋
      ≤ ⌊(target : ℚ)⌋ := Int.floor_le_floor (by linarith)
    _ = target := Int.floor_intCast target

theorem frameValue_mono {target : ℤ} (ht : 0 ≤ target) {e e' : ℚ}
    (d : ℚ) (hd : 0 < d) (h : e ≤ e') :
    frameValue target e d ≤ frameValue target e' d := by
  unfold frameValue
  apply Int.floor_le_floor
  have hmono := easeOutCubic_mono (animProgress_le_one e' d)
    (animProgress_mono d hd h)
  have := mul_le_mul_of_nonneg_left hmono
    (by exact_mod_cast ht : (0 : ℚ) ≤ (target : ℚ))
  simpa using this

theorem frameText_final {target : ℤ} {e d : ℚ} (hd : 0 < d) (h : d ≤ e) :
    frameText target e d = target := by
  unfold frameText
  rw [animProgress_eq_one hd h]
  simp

/-- Claim C5: when the count animation's progress reaches 1.0 — the frame
whose elapsed time is at least the duration — the element's displayed
text equals exactly the target integer: the final frame assigns the
target directly, regardless of any intermediate floating-point rounding
in the cubic ease-out interpolation. -/
theorem animateCount_final_exact (target : ℤ) (elapsed duration : ℚ)
    (hd : 0 < duration) (h : duration ≤ elapsed) :
    frameText target elapsed duration = target :=
  frameText_final hd h

/-- Witness for C5: with the script's 2000ms duration, the frame at
elapsed time 2000 displays exactly the target 500. -/
theorem animateCount_final_exact_witness :
    frameText 500 2000 2000 = 500 :=
  animateCount_final_exact 500 2000 2000 (by norm_num) (by norm_num)

/-- Claim C9: for every nonnegative integer target and nondecreasing
sequence of animation-frame timestamps, the sequence of values
`animateCount` writes is nondecreasing and never exceeds the target;
each frame whose elapsed time reaches the duration writes the target
itself. -/
theorem animateCount_writes_monotone (target : ℤ) (ht : 0 ≤ target)
    (startTime duration : ℚ) (hd : 0 < duration) (frames : List ℚ)
    (hframes : List.Chain' (· ≤ ·) frames) :
    List.Chain' (· ≤ ·) (countWrites target startTime duration frames) ∧
    (∀ v ∈ countWrites target startTime duration frames, v ≤ target) ∧
    (∀ t ∈ frames, duration ≤ t - startTime →
      frameText target (t - startTime) duration = target) := by
  refine ⟨?_, ?_, ?_⟩
  · unfold countWrites
    rw [List.chain'_map]
    refine hframes.imp ?_
    intro a b hab
    rw [frameText_eq_frameValue, frameText_eq_frameValue]
    exact frameValue_mono ht duration hd (by linarith)
  · intro v hv
    unfold countWrites at hv
    rw [List.mem_map] at hv
    obtain ⟨t, _, rfl⟩ := hv
    rw [frameText_eq_frameValue]
    exact frameValue_le_target ht _ _
  · intro t _ hle
    exact frameText_final hd hle

/-- Witness for C9: with target 500, start time 0 and duration 2000, the
frame timestamps 0, 500, 2000 produce a nondecreasing write sequence
bounded by 500 whose final frame writes exactly 500. -/
theorem animateCount_writes_monotone_witness :
    List.Chain' (· ≤ ·) (countWrites 500 0 2000 [0, 500, 2000]) ∧
    (∀ v ∈ countWrites 500 0 2000 [0, 500, 2000], v ≤ 500) ∧
    (∀ t ∈ [(0 : ℚ), 500, 2000], (2000 : ℚ) ≤ t - 0 →
      frameText 500 (t - 0) 2000 = 500) :=
  animateCount_writes_monotone 500 (by norm_num) 0 2000 (by norm_num)
    [0, 500, 2000] (by simp [List.chain'_cons]; norm_num)

/-! ## Scroll reveal (`initScrollReveal`, lines 230–251)

The observer is created with threshold `config.intersectionThreshold`
(10%) and root margin `0px 0px -50px 0px` (a viewport deflated by 50px
at the bottom); the browser therefore delivers an entry with
`isIntersecting = true` exactly when at least 10% of the element's
area intersects the deflated viewport.  The callback (lines 236–242)
adds the class `"visible"` to each intersecting entry's target and
unobserves it.  The browser only delivers entries for targets that are
currently observed; `validEntries` states that side condition for a
trace of entries.  -/

structure RevealState where
  observed : List String
  visible : List String
deriving DecidableEq, Repr

structure RevealEntry where
  target : String
  isIntersecting : Bool
deriving DecidableEq, Repr

/-- One entry processed by the observer callback: on intersection, add
`"visible"` to the target and unobserve it; otherwise do nothing. -/
def revealStep (st : RevealState) (e : RevealEntry) : RevealState :=
  if e.isIntersecting then
    { observed := st.observed.filter (fun x => x ≠ e.target)
      visible := classAdd st.visible e.target }
  else st

def revealRun (st : RevealState) (es : List RevealEntry) : RevealState :=
  es.foldl revealStep st

/-- The observer delivers an entry only for a currently observed target. -/
def validEntries : RevealState → List RevealEntry → Prop
  | _, [] => True
  | st, e :: es => e.target ∈ st.observed ∧ validEntries (revealStep st e) es

instance : ∀ (st : RevealState) (es : List RevealEntry),
    Decidable (validEntries st es)
  | _, [] => inferInstanceAs (Decidable True)
  | st, e :: es =>
      have := instDecidableValidEntries (revealStep st e) es
      inferInstanceAs (Decidable (_ ∧ _))

/-- How many times the callback fires the one-shot reveal (`classList.add
"visible"` plus `unobserve`) for element `x` along a trace of entries. -/
def countTriggers (x : String) (es : List RevealEntry) : Nat :=
  es.countP fun e => (e.target == x) && e.isIntersecting

theorem revealStep_intersecting (st : RevealState) (e : RevealEntry)
    (hint : e.isIntersecting = true) :
    revealStep st e =
      ⟨st.observed.filter (fun z => z ≠ e.target),
        classAdd st.visible e.target⟩ := by
  unfold revealStep
  rw [hint]
  simp

theorem revealStep_not_intersecting (st : RevealState) (e : RevealEntry)
    (hint : e.isIntersecting = false) : revealStep st e = st := by
  unfold revealStep
  rw [hint]
  simp

theorem mem_classAdd_self (cs : List String) (c : String) :
    c ∈ classAdd cs c := by
  rw [← classContains_iff]
  exact classContains_classAdd_self cs c

theorem revealStep_observed_subset (st : RevealState) (e : RevealEntry) :
    (revealStep st e).observed ⊆ st.observed := by
  unfold revealStep
  split
  · exact fun y hy => (List.mem_filter.mp hy).1
  · exact fun _ h => h

theorem trigger_iff (e : RevealEntry) (x : String) :
    (((e.target == x) && e.isIntersecting) = true) ↔
      (e.target = x ∧ e.isIntersecting = true) := by
  simp

theorem not_observed_after_trigger (st : RevealState) (e : RevealEntry)
    (x : String) (ht : e.target = x) (hint : e.isIntersecting = true) :
    x ∉ (revealStep st e).observed := by
  rw [revealStep_intersecting st e hint]
  intro hmem'
  have h2 := List.mem_filter.mp hmem'
  simp only [ne_eq, decide_eq_true_eq] at h2
  exact h2.2 ht.symm

theorem revealStep_visible_mono (st : RevealState) (e : RevealEntry)
    {y : String} (h : y ∈ st.visible) : y ∈ (revealStep st e).visible := by
  unfold revealStep
  split
  · simp only [classAdd]
    split
    · exact h
    · exact List.mem_append_left _ h
  · exact h

theorem revealRun_visible_mono (es : List RevealEntry) (st : RevealState)
    {y : String} (h : y ∈ st.visible) : y ∈ (revealRun st es).visible := by
  induction es generalizing st with
  | nil => exact h
  | cons e es ih => exact ih (revealStep st e) (revealStep_visible_mono st e h)

theorem revealRun_observed_subset (es : List RevealEntry) (st : RevealState) :
    (revealRun st es).observed ⊆ st.observed := by
  induction es generalizing st with
  | nil => exact fun _ h => h
  | cons e es ih =>
      exact fun y hy => revealStep_observed_subset st e (ih (revealStep st e) hy)

theorem countTriggers_of_not_observed (x : String) (es : List RevealEntry)
    (st : RevealState) (hx : x ∉ st.observed) (hv : validEntries st es) :
    countTriggers x es = 0 := by
  induction es generalizing st with
  | nil => rfl
  | cons e es ih =>
      obtain ⟨hmem, hv'⟩ := hv
      have hne : e.target ≠ x := fun h => hx (h ▸ hmem)
      have hx' : x ∉ (revealStep st e).observed :=
        fun h => hx (revealStep_observed_subset st e h)
      unfold countTriggers at *
      rw [List.countP_cons]
      simp only [beq_iff_eq, hne, false_and, Bool.and_eq_true, decide_eq_true_eq]
      rw [ih (revealStep st e) hx' hv']
      simp [hne]

theorem countTriggers_le_one (x : String) (es : List RevealEntry)
    (st : RevealState) (hv : validEntries st es) :
    countTriggers x es ≤ 1 := by
  induction es generalizing st with
  | nil => exact Nat.zero_le 1
  | cons e es ih =>
      obtain ⟨hmem, hv'⟩ := hv
      unfold countTriggers
      rw [List.countP_cons]
      by_cases htr : e.target = x ∧ e.isIntersecting = true
      · have hx' : x ∉ (revealStep st e).observed :=
          not_observed_after_trigger st e x htr.1 htr.2
        have h0 := countTriggers_of_not_observed x es (revealStep st e) hx' hv'
        unfold countTriggers at h0
        rw [h0]
        split <;> simp
      · have h1 := ih (revealStep st e) hv'
        unfold countTriggers at h1
        rw [if_neg (fun hc => htr ((trigger_iff e x).mp hc))]
        simpa using h1

/-- Claim C4: along any trace of entries the observer can actually
deliver (each entry's target observed at delivery), the one-shot reveal
of an element `x` — adding `"visible"` and unobserving — fires at most
once; once triggered, `x` carries `"visible"` and is unobserved at the
end of the trace; and the `"visible"` class is never removed from any
element, so the per-element transition is monotonic and one-way. -/
theorem scrollReveal_once_and_monotone (st : RevealState)
    (es : List RevealEntry) (x : String) (hv : validEntries st es) :
    countTriggers x es ≤ 1 ∧
    (∀ y ∈ st.visible, y ∈ (revealRun st es).visible) ∧
    (1 ≤ countTriggers x es →
      x ∈ (revealRun st es).visible ∧ x ∉ (revealRun st es).observed) := by
  refine ⟨countTriggers_le_one x es st hv, ?_, ?_⟩
  · intro y hy
    exact revealRun_visible_mono es st hy
  · intro htr
    induction es generalizing st with
    | nil => exact absurd htr (by simp [countTriggers])
    | cons e es ih =>
        obtain ⟨hmem, hv'⟩ := hv
        by_cases hcase : e.target = x ∧ e.isIntersecting = true
        · have hvis : x ∈ (revealStep st e).visible := by
            rw [revealStep_intersecting st e hcase.2]
            exact hcase.1 ▸ mem_classAdd_self st.visible e.target
          have hobs : x ∉ (revealStep st e).observed :=
            not_observed_after_trigger st e x hcase.1 hcase.2
          refine ⟨revealRun_visible_mono es (revealStep st e) hvis, ?_⟩
          intro hcon
          exact hobs (revealRun_observed_subset es (revealStep st e) hcon)
        · have hstep : countTriggers x (e :: es) = countTriggers x es := by
            unfold countTriggers
            rw [List.countP_cons,
              if_neg (fun hc => hcase ((trigger_iff e x).mp hc)), Nat.add_zero]
          rw [hstep] at htr
          exact ih (revealStep st e) hv' htr

/-- Witness for C4: a concrete trace — element `"card1"` intersects, a
later (invalid-free) entry shows nothing more fires for it — triggers
the reveal exactly once, leaves `"card1"` visible and unobserved, and
keeps every previously visible element visible. -/
theorem scrollReveal_once_and_monotone_witness :
    countTriggers "card1"
        [⟨"card1", true⟩, ⟨"card2", false⟩, ⟨"card2", true⟩] ≤ 1 ∧
    (∀ y ∈ (⟨["card1", "card2"], ["card0"]⟩ : RevealState).visible,
      y ∈ (revealRun ⟨["card1", "card2"], ["card0"]⟩
        [⟨"card1", true⟩, ⟨"card2", false⟩, ⟨"card2", true⟩]).visible) ∧
    (1 ≤ countTriggers "card1"
        [⟨"card1", true⟩, ⟨"card2", false⟩, ⟨"card2", true⟩] →
      "card1" ∈ (revealRun ⟨["card1", "card2"], ["card0"]⟩
        [⟨"card1", true⟩, ⟨"card2", false⟩, ⟨"card2", true⟩]).visible ∧
      "card1" ∉ (revealRun ⟨["card1", "card2"], ["card0"]⟩
        [⟨"card1", true⟩, ⟨"card2", false⟩, ⟨"card2", true⟩]).observed) :=
  scrollReveal_once_and_monotone ⟨["card1", "card2"], ["card0"]⟩
    [⟨"card1", true⟩, ⟨"card2", false⟩, ⟨"card2", true⟩] "card1" (by decide)

/-! ## Active navigation link (`initActiveNavLink` / `updateActiveLink`,
lines 164–186)

Each section element has an `id`, an `offsetTop` and an `offsetHeight`;
each navigation link's `href` fragment names a section id.  For every
section in document order, the handler computes
`sectionTop = offsetTop - headerHeight - 100`; when a matching nav link
exists and `sectionTop < scrollY ≤ sectionTop + sectionHeight`, it
strips the class `"active"` from every nav link and adds it to the
first link whose `href` matches (the `querySelector` result).
Sections whose span does not contain the offset leave the links
untouched.  -/

structure PageSection where
  id : String
  offsetTop : ℤ
  offsetHeight : ℤ
deriving DecidableEq, Repr

structure NavLink where
  href : String
  active : Bool
deriving DecidableEq, Repr

def deactivateAll (ls : List NavLink) : List NavLink :=
  ls.map fun l => { l with active := false }

def activateFirst : List NavLink → String → List NavLink
  | [], _ => []
  | l :: rest, i =>
      if l.href = i then { l with active := true } :: rest
      else l :: activateFirst rest i

/-- Remove `"active"` from every link, then add it to the first link
whose `href` targets section `i` (lines 178–179). -/
def markActive (ls : List NavLink) (i : String) : List NavLink :=
  activateFirst (deactivateAll ls) i

def hasLink (ls : List NavLink) (i : String) : Bool :=
  ls.any fun l => l.href == i

/-- The vertical span test of line 177:
`scrollY > sectionTop && scrollY <= sectionTop + sectionHeight`. -/
def spanContains (headerHeight : ℤ) (s : PageSection) (scrollY : ℤ) : Bool :=
  decide (s.offsetTop - headerHeight - 100 < scrollY) &&
  decide (scrollY ≤ s.offsetTop - headerHeight - 100 + s.offsetHeight)

/-- The per-section body of the `forEach` in lines 170–182. -/
def sectionStep (headerHeight scrollY : ℤ) (ls : List NavLink)
    (s : PageSection) : List NavLink :=
  if hasLink ls s.id && spanContains headerHeight s scrollY then
    markActive ls s.id
  else ls

def updateActiveLink (headerHeight : ℤ) (sections : List PageSection)
    (scrollY : ℤ) (links : List NavLink) : List NavLink :=
  sections.foldl (sectionStep headerHeight scrollY) links

def countActive (ls : List NavLink) : Nat :=
  (ls.filter fun l => l.active).length

theorem countActive_deactivateAll (ls : List NavLink) :
    countActive (deactivateAll ls) = 0 := by
  induction ls with
  | nil => rfl
  | cons l rest ih =>
      simp only [deactivateAll, List.map_cons, countActive,
        List.filter_cons] at *
      simp [ih]

theorem hasLink_deactivateAll (ls : List NavLink) (i : String) :
    hasLink (deactivateAll ls) i = hasLink ls i := by
  induction ls with
  | nil => rfl
  | cons l rest ih =>
      simp only [deactivateAll, List.map_cons, hasLink, List.any_cons] at *
      rw [ih]

theorem countActive_activateFirst (ls : List NavLink) (i : String)
    (hall : countActive ls = 0) (hlink : hasLink ls i = true) :
    countActive (activateFirst ls i) = 1 := by
  induction ls with
  | nil => simp [hasLink] at hlink
  | cons l rest ih =>
      have hla : l.active = false := by
        by_contra hx
        rw [Bool.not_eq_false] at hx
        simp [countActive, List.filter_cons, hx] at hall
      have hrest : countActive rest = 0 := by
        simpa [countActive, List.filter_cons, hla] using hall
      by_cases hl : l.href = i
      · simp only [activateFirst, if_pos hl]
        simp [countActive, List.filter_cons, hrest]
        simpa [countActive] using hrest
      · simp only [activateFirst, if_neg hl]
        have hlink' : hasLink rest i = true := by
          simp only [hasLink, List.any_cons, Bool.or_eq_true, beq_iff_eq]
            at hlink
          rcases hlink with h1 | h1
          · exact absurd h1 hl
          · simpa [hasLink] using h1
        have hres := ih hrest hlink'
        simp only [countActive, List.filter_cons, hla, if_neg]
        simpa [countActive] using hres

theorem countActive_markActive (ls : List NavLink) (i : String)
    (hlink : hasLink ls i = true) : countActive (markActive ls i) = 1 :=
  countActive_activateFirst (deactivateAll ls) i
    (countActive_deactivateAll ls)
    ((hasLink_deactivateAll ls i).symm ▸ hlink)

theorem countActive_sectionStep_one (headerHeight scrollY : ℤ)
    (ls : List NavLink) (s : PageSection) (h1 : countActive ls = 1) :
    countActive (sectionStep headerHeight scrollY ls s) = 1 := by
  unfold sectionStep
  split
  · next hc =>
      exact countActive_markActive ls s.id ((Bool.and_eq_true _ _).mp hc).1
  · exact h1

theorem countActive_foldl_one (headerHeight scrollY : ℤ)
    (sections : List PageSection) (ls : List NavLink)
    (h1 : countActive ls = 1) :
    countActive (sections.foldl (sectionStep headerHeight scrollY) ls) = 1 := by
  induction sections generalizing ls with
  | nil => exact h1
  | cons s rest ih =>
      exact ih _ (countActive_sectionStep_one headerHeight scrollY ls s h1)

/-- The targets of the nav links, in document order.  Every step of the
update rewrites only `active` flags, so this list is invariant. -/
def hrefTargets (ls : List NavLink) : List String :=
  ls.map fun l => l.href

/-- A section matches when a nav link targets it and its span contains
the scroll offset — the guard of lines 176–177. -/
def sectionMatches (headerHeight scrollY : ℤ) (links : List NavLink)
    (s : PageSection) : Bool :=
  hasLink links s.id && spanContains headerHeight s scrollY

/-- The last matching section in document order — the one whose
`markActive` survives the `forEach`. -/
def lastMatching (headerHeight scrollY : ℤ) (links : List NavLink) :
    List PageSection → Option PageSection
  | [] => none
  | s :: rest =>
      match lastMatching headerHeight scrollY links rest with
      | some m => some m
      | none =>
          if sectionMatches headerHeight scrollY links s then some s else none

/-- The targets of the links currently carrying `"active"`. -/
def activeHrefTargets (ls : List NavLink) : List String :=
  (ls.filter fun l => l.active).map fun l => l.href

theorem hrefTargets_deactivateAll (ls : List NavLink) :
    hrefTargets (deactivateAll ls) = hrefTargets ls := by
  induction ls with
  | nil => rfl
  | cons l rest ih =>
      simp only [hrefTargets, deactivateAll, List.map_cons] at *
      rw [ih]

theorem hrefTargets_activateFirst (ls : List NavLink) (i : String) :
    hrefTargets (activateFirst ls i) = hrefTargets ls := by
  induction ls with
  | nil => rfl
  | cons l rest ih =>
      by_cases hl : l.href = i
      · simp [activateFirst, hl, hrefTargets]
      · simp only [activateFirst, if_neg hl, hrefTargets, List.map_cons] at *
        rw [ih]

theorem hrefTargets_markActive (ls : List NavLink) (i : String) :
    hrefTargets (markActive ls i) = hrefTargets ls := by
  unfold markActive
  rw [hrefTargets_activateFirst, hrefTargets_deactivateAll]

theorem hasLink_eq_hrefTargets (ls : List NavLink) (i : String) :
    hasLink ls i = (hrefTargets ls).any fun x => x == i := by
  induction ls with
  | nil => rfl
  | cons l rest ih =>
      simp only [hasLink, hrefTargets, List.map_cons, List.any_cons] at *
      rw [ih]

theorem hasLink_congr {ls ls' : List NavLink}
    (h : hrefTargets ls = hrefTargets ls') (i : String) :
    hasLink ls i = hasLink ls' i := by
  rw [hasLink_eq_hrefTargets, hasLink_eq_hrefTargets, h]

theorem deactivateAll_idem (ls : List NavLink) :
    deactivateAll (deactivateAll ls) = deactivateAll ls := by
  induction ls with
  | nil => rfl
  | cons l rest ih =>
      simp only [deactivateAll, List.map_cons] at *
      rw [ih]

theorem deactivateAll_activateFirst (ls : List NavLink) (i : String) :
    deactivateAll (activateFirst ls i) = deactivateAll ls := by
  induction ls with
  | nil => rfl
  | cons l rest ih =>
      by_cases hl : l.href = i
      · simp [activateFirst, hl, deactivateAll]
      · simp only [activateFirst, if_neg hl, deactivateAll, List.map_cons] at *
        rw [ih]

theorem deactivateAll_markActive (ls : List NavLink) (i : String) :
    deactivateAll (markActive ls i) = deactivateAll ls := by
  unfold markActive
  rw [deactivateAll_activateFirst, deactivateAll_idem]

/-- A later `markActive` completely supersedes an earlier one: line 178
deactivates every link before line 179 activates the match. -/
theorem markActive_markActive (ls : List NavLink) (i j : String) :
    markActive (markActive ls i) j = markActive ls j := by
  show activateFirst (deactivateAll (markActive ls i)) j = markActive ls j
  rw [deactivateAll_markActive]
  rfl

theorem sectionStep_congr (headerHeight scrollY : ℤ) (ls links : List NavLink)
    (s : PageSection) (h : hrefTargets ls = hrefTargets links) :
    sectionStep headerHeight scrollY ls s =
      if sectionMatches headerHeight scrollY links s then markActive ls s.id
      else ls := by
  unfold sectionStep sectionMatches
  rw [hasLink_congr h s.id]

theorem lastMatching_eq_some (headerHeight scrollY : ℤ)
    (links : List NavLink) :
    ∀ (sections : List PageSection) (m : PageSection),
      lastMatching headerHeight scrollY links sections = some m →
      m ∈ sections ∧ sectionMatches headerHeight scrollY links m = true := by
  intro sections
  induction sections with
  | nil => intro m h; exact absurd h (by simp [lastMatching])
  | cons s rest ih =>
      intro m h
      cases hrest : lastMatching headerHeight scrollY links rest with
      | some m' =>
          simp only [lastMatching, hrest, Option.some.injEq] at h
          subst h
          obtain ⟨hmem, hm⟩ := ih m' hrest
          exact ⟨List.mem_cons_of_mem s hmem, hm⟩
      | none =>
          simp only [lastMatching, hrest] at h
          by_cases hs : sectionMatches headerHeight scrollY links s = true
          · rw [if_pos hs, Option.some.injEq] at h
            subst h
            exact ⟨List.mem_cons_self s rest, hs⟩
          · rw [if_neg hs] at h
            exact absurd h (by simp)

theorem lastMatching_eq_none (headerHeight scrollY : ℤ)
    (links : List NavLink) :
    ∀ (sections : List PageSection),
      lastMatching headerHeight scrollY links sections = none →
      ∀ s ∈ sections, sectionMatches headerHeight scrollY links s = false := by
  intro sections
  induction sections with
  | nil => intro _ s hs; exact absurd hs (List.not_mem_nil s)
  | cons s rest ih =>
      intro h t ht
      cases hrest : lastMatching headerHeight scrollY links rest with
      | some m' =>
          simp only [lastMatching, hrest] at h
          exact absurd h (by simp)
      | none =>
          simp only [lastMatching, hrest] at h
          by_cases hs : sectionMatches headerHeight scrollY links s = true
          · rw [if_pos hs] at h
            exact absurd h (by simp)
          · rcases List.mem_cons.mp ht with rfl | hmem
            · exact Bool.eq_false_iff.mpr hs
            · exact ih hrest t hmem

/-- The whole `forEach` (lines 170–182): it acts as the `markActive` of
the last matching section, or as the identity when no section matches. -/
theorem foldl_sectionStep_eq (headerHeight scrollY : ℤ)
    (links : List NavLink) :
    ∀ (sections : List PageSection) (ls : List NavLink),
      hrefTargets ls = hrefTargets links →
      sections.foldl (sectionStep headerHeight scrollY) ls =
        match lastMatching headerHeight scrollY links sections with
        | none => ls
        | some m => markActive ls m.id := by
  intro sections
  induction sections with
  | nil => intro ls _; rfl
  | cons s rest ih =>
      intro ls h
      rw [List.foldl_cons, sectionStep_congr headerHeight scrollY ls links s h]
      by_cases hs : sectionMatches headerHeight scrollY links s = true
      · rw [if_pos hs]
        have h' : hrefTargets (markActive ls s.id) = hrefTargets links := by
          rw [hrefTargets_markActive]; exact h
        rw [ih (markActive ls s.id) h']
        cases hrest : lastMatching headerHeight scrollY links rest with
        | none => simp [lastMatching, hrest, hs]
        | some m => simp [lastMatching, hrest, markActive_markActive]
      · rw [if_neg hs]
        rw [ih ls h]
        cases hrest : lastMatching headerHeight scrollY links rest with
        | none => simp [lastMatching, hrest, hs]
        | some m => simp [lastMatching, hrest]

theorem activeHrefTargets_nil_of_inactive (ls : List NavLink)
    (hall : ∀ l ∈ ls, l.active = false) : activeHrefTargets ls = [] := by
  induction ls with
  | nil => rfl
  | cons l rest ih =>
      have hla := hall l (List.mem_cons_self l rest)
      unfold activeHrefTargets
      rw [List.filter_cons]
      have hcond : ¬(l.active = true) := by rw [hla]; simp
      rw [if_neg (by simpa using hcond)]
      exact ih fun x hx => hall x (List.mem_cons_of_mem l hx)

theorem activeHrefTargets_activateFirst (ls : List NavLink) (i : String)
    (hall : ∀ l ∈ ls, l.active = false) (hlink : hasLink ls i = true) :
    activeHrefTargets (activateFirst ls i) = [i] := by
  induction ls with
  | nil => simp [hasLink] at hlink
  | cons l rest ih =>
      have hla := hall l (List.mem_cons_self l rest)
      by_cases hl : l.href = i
      · simp only [activateFirst, if_pos hl]
        have hrest0 : activeHrefTargets rest = [] :=
          activeHrefTargets_nil_of_inactive rest
            fun x hx => hall x (List.mem_cons_of_mem l hx)
        unfold activeHrefTargets at hrest0 ⊢
        rw [List.filter_cons]
        simp [hrest0, hl]
      · simp only [activateFirst, if_neg hl]
        have hlink' : hasLink rest i = true := by
          simp only [hasLink, List.any_cons, Bool.or_eq_true, beq_iff_eq]
            at hlink
          rcases hlink with h1 | h1
          · exact absurd h1 hl
          · simpa [hasLink] using h1
        have tail := ih (fun x hx => hall x (List.mem_cons_of_mem l hx)) hlink'
        have hstep : activeHrefTargets (l :: activateFirst rest i) =
            activeHrefTargets (activateFirst rest i) := by
          unfold activeHrefTargets
          rw [List.filter_cons]
          have hcond : ¬(l.active = true) := by rw [hla]; simp
          rw [if_neg (by simpa using hcond)]
        rw [hstep]
        exact tail

/-- After `markActive ls i` (with a link targeting `i` present), the
links carrying `"active"` are exactly one link, and it targets `i`. -/
theorem activeHrefTargets_markActive (ls : List NavLink) (i : String)
    (hlink : hasLink ls i = true) :
    activeHrefTargets (markActive ls i) = [i] := by
  unfold markActive
  apply activeHrefTargets_activateFirst
  · intro l hl
    unfold deactivateAll at hl
    obtain ⟨x, _, rfl⟩ := List.mem_map.mp hl
    rfl
  · rw [hasLink_deactivateAll]
    exact hlink

/-- Claim C1 counterexample: with a header of height 80 and one section
`"about"` (top 300, height 200), the span is (120, 320]; at scroll
offset 900 no section's span contains the offset, yet a previously
active link keeps the `"active"` class after the update — the handler
never clears a stale link, contradicting the claim that no link is
active when no span contains the offset. -/
theorem updateActiveLink_stale_counterexample :
    spanContains 80 ⟨"about", 300, 200⟩ 900 = false ∧
    countActive
      (updateActiveLink 80 [⟨"about", 300, 200⟩] 900 [⟨"about", true⟩]) = 1 :=
  by decide

/-- Claim C1 as amended: for every scroll position handled by the update,
if some section's span (section top minus header height minus 100, to
section top plus section height) contains the offset and a matching nav
link exists, then exactly one navigation link carries `"active"`
afterwards, namely the link of the matching section — precisely, the
update acts as `markActive` for the last matching section `m` in
document order (the unique matching section when spans do not overlap),
so the one active link is the link whose `href` targets `m`; if no
section's span contains the offset (or no matching link exists), the
update leaves every link's state unchanged — in particular a previously
active link remains active rather than being cleared. -/
theorem updateActiveLink_amended (headerHeight scrollY : ℤ)
    (sections : List PageSection) (links : List NavLink) :
    ((∀ s ∈ sections,
        sectionMatches headerHeight scrollY links s = false) →
      updateActiveLink headerHeight sections scrollY links = links) ∧
    ((∃ s ∈ sections,
        sectionMatches headerHeight scrollY links s = true) →
      ∃ m, lastMatching headerHeight scrollY links sections = some m ∧
        m ∈ sections ∧
        sectionMatches headerHeight scrollY links m = true ∧
        updateActiveLink headerHeight sections scrollY links =
          markActive links m.id ∧
        activeHrefTargets
          (updateActiveLink headerHeight sections scrollY links) = [m.id] ∧
        countActive
          (updateActiveLink headerHeight sections scrollY links) = 1) := by
  constructor
  · intro hnone
    unfold updateActiveLink
    rw [foldl_sectionStep_eq headerHeight scrollY links sections links rfl]
    cases h : lastMatching headerHeight scrollY links sections with
    | none => rfl
    | some m =>
        obtain ⟨hmem, hm⟩ :=
          lastMatching_eq_some headerHeight scrollY links sections m h
        rw [hnone m hmem] at hm
        exact absurd hm (by simp)
  · intro hsome
    cases h : lastMatching headerHeight scrollY links sections with
    | none =>
        obtain ⟨s, hs, hm⟩ := hsome
        have := lastMatching_eq_none headerHeight scrollY links sections h s hs
        rw [hm] at this
        exact absurd this (by simp)
    | some m =>
        obtain ⟨hmem, hmatch⟩ :=
          lastMatching_eq_some headerHeight scrollY links sections m h
        have hupd : updateActiveLink headerHeight sections scrollY links =
            markActive links m.id := by
          unfold updateActiveLink
          rw [foldl_sectionStep_eq headerHeight scrollY links sections links
            rfl, h]
        have hlink : hasLink links m.id = true := by
          unfold sectionMatches at hmatch
          exact ((Bool.and_eq_true _ _).mp hmatch).1
        refine ⟨m, rfl, hmem, hmatch, hupd, ?_, ?_⟩
        · rw [hupd]
          exact activeHrefTargets_markActive links m.id hlink
        · rw [hupd]
          exact countActive_markActive links m.id hlink

/-- Witness for the amended C1: at offset 900 (outside the only span) the
update leaves the links unchanged; at offset 200 (inside the span of
`"about"`) the update marks exactly the `"about"` link active: the last
matching section is `"about"`, the update equals `markActive` for it,
and the one active link among the two targets `"about"`. -/
theorem updateActiveLink_amended_witness :
    updateActiveLink 80 [⟨"about", 300, 200⟩] 900 [⟨"about", false⟩] =
      [⟨"about", false⟩] ∧
    (∃ m, lastMatching 80 200 [⟨"about", false⟩, ⟨"contact", false⟩]
        [⟨"about", 300, 200⟩] = some m ∧
      m ∈ [(⟨"about", 300, 200⟩ : PageSection)] ∧
      sectionMatches 80 200 [⟨"about", false⟩, ⟨"contact", false⟩] m = true ∧
      updateActiveLink 80 [⟨"about", 300, 200⟩] 200
        [⟨"about", false⟩, ⟨"contact", false⟩] = markActive
          [⟨"about", false⟩, ⟨"contact", false⟩] m.id ∧
      activeHrefTargets (updateActiveLink 80 [⟨"about", 300, 200⟩] 200
        [⟨"about", false⟩, ⟨"contact", false⟩]) = [m.id] ∧
      countActive (updateActiveLink 80 [⟨"about", 300, 200⟩] 200
        [⟨"about", false⟩, ⟨"contact", false⟩]) = 1) :=
  ⟨(updateActiveLink_amended 80 900 [⟨"about", 300, 200⟩]
      [⟨"about", false⟩]).1 (by decide),
   (updateActiveLink_amended 80 200 [⟨"about", 300, 200⟩]
      [⟨"about", false⟩, ⟨"contact", false⟩]).2
      ⟨⟨"about", 300, 200⟩, by decide, by decide⟩⟩

/-! ## Contact form validation (`initContactForm`, lines 279–401)

Field values are modelled as lists of characters.  `String.prototype.trim`
strips the JavaScript whitespace set (WhiteSpace ∪ LineTerminator) from
both ends.  The validation patterns (lines 287–291) are:

  name:    `^[a-zA-ZÀ-ÿ\s]{2,50}$`
  email:   `^[a-zA-Z0-9._%+-]+@[a-zA-Z0-9.-]+\.[a-zA-Z]{2,}$`
  message: `^.{10,1000}$`

Each is translated to an executable matcher below.  In a non-unicode
JavaScript regex the range `À-ÿ` is the code units U+00C0–U+00FF, `\s`
is the ECMAScript whitespace set, `.` is any character except a line
terminator, and `{m,n}` counts UTF-16 code units.  -/

/-- The ECMAScript `\s` set (also what `trim` strips): TAB LF VT FF CR,
space, NBSP, U+1680, U+2000–U+200A, LS, PS, U+202F, U+205F, U+3000 and
the BOM U+FEFF. -/
def isJSSpace (c : Char) : Bool :=
  c.toNat = 9 || c.toNat = 10 || c.toNat = 11 || c.toNat = 12 ||
  c.toNat = 13 || c.toNat = 32 || c.toNat = 160 || c.toNat = 5760 ||
  (8192 ≤ c.toNat && c.toNat ≤ 8202) || c.toNat = 8232 ||
  c.toNat = 8233 || c.toNat = 8239 || c.toNat = 8287 ||
  c.toNat = 12288 || c.toNat = 65279

/-- Trimming, `value.trim()`: drop JavaScript whitespace from both ends. -/
def trimJS (cs : List Char) : List Char :=
  ((cs.dropWhile isJSSpace).reverse.dropWhile isJSSpace).reverse

/-- One character of the name pattern's class `[a-zA-ZÀ-ÿ\s]`:
ASCII letters, the code units U+00C0 (192) through U+00FF (255), or
ECMAScript whitespace. -/
def isNameChar (c : Char) : Bool :=
  (97 ≤ c.toNat && c.toNat ≤ 122) || (65 ≤ c.toNat && c.toNat ≤ 90) ||
  (192 ≤ c.toNat && c.toNat ≤ 255) || isJSSpace c

/-- Full match of `^[a-zA-ZÀ-ÿ\s]{2,50}$`. -/
def matchName (cs : List Char) : Bool :=
  decide (2 ≤ cs.length) && decide (cs.length ≤ 50) && cs.all isNameChar

def isAsciiLetter (c : Char) : Bool :=
  (97 ≤ c.toNat && c.toNat ≤ 122) || (65 ≤ c.toNat && c.toNat ≤ 90)

def isAsciiDigit (c : Char) : Bool :=
  48 ≤ c.toNat && c.toNat ≤ 57

/-- One character of the email local-part class `[a-zA-Z0-9._%+-]`. -/
def isEmailLocalChar (c : Char) : Bool :=
  isAsciiLetter c || isAsciiDigit c || c = '.' || c = '_' || c = '%' ||
  c = '+' || c = '-'

/-- One character of the email domain class `[a-zA-Z0-9.-]`. -/
def isEmailDomainChar (c : Char) : Bool :=
  isAsciiLetter c || isAsciiDigit c || c = '.' || c = '-'

/-- Match of `[a-zA-Z0-9.-]+\.[a-zA-Z]{2,}$` over the part after the
`@`: the suffix after the last dot is the 2+-letter TLD and the
nonempty remainder consists of domain characters.  (Since the TLD class
has no dot, the separating dot of the pattern is necessarily the last
dot of the string.) -/
def emailDomainOk (domain : List Char) : Bool :=
  let rev := domain.reverse
  let tld := rev.takeWhile isAsciiLetter
  match rev.drop tld.length with
  | [] => false
  | d :: before =>
      decide (d = '.') && decide (2 ≤ tld.length) && !before.isEmpty &&
      before.all isEmailDomainChar

/-- Full match of `^[a-zA-Z0-9._%+-]+@[a-zA-Z0-9.-]+\.[a-zA-Z]{2,}$`.
No character class of the pattern contains `@`, so the `@` consumed by
the pattern is the first `@` of the string. -/
def matchEmail (cs : List Char) : Bool :=
  let lp := cs.takeWhile fun c => c ≠ '@'
  match cs.drop lp.length with
  | [] => false
  | _ :: domain =>
      !lp.isEmpty && lp.all isEmailLocalChar && emailDomainOk domain

/-- The ECMAScript LineTerminator set, which `.` does not match. -/
def isLineTerminator (c : Char) : Bool :=
  c.toNat = 10 || c.toNat = 13 || c.toNat = 8232 || c.toNat = 8233

/-- String length in UTF-16 code units, the unit `{m,n}` counts. -/
def utf16Len (cs : List Char) : Nat :=
  cs.foldl (fun n c => n + (if 65536 ≤ c.toNat then 2 else 1)) 0

/-- Full match of `^.{10,1000}$`: 10–1000 code units, none of them a
line terminator. -/
def matchMessage (cs : List Char) : Bool :=
  decide (10 ≤ utf16Len cs) && decide (utf16Len cs ≤ 1000) &&
  cs.all fun c => !isLineTerminator c

structure FormField where
  name : String
  value : List Char
  required : Bool
  errorClass : Bool
deriving DecidableEq, Repr

/-- Pattern dispatch of lines 315–319: a named pattern if one exists for
the field name, else presence when the field is required. -/
def fieldPatternTest (fieldName : String) (v : List Char)
    (required : Bool) : Bool :=
  if fieldName = "name" then matchName v
  else if fieldName = "email" then matchEmail v
  else if fieldName = "message" then matchMessage v
  else if required && v.isEmpty then false
  else true

/-- Source `validateField` (lines 305–336): `"subject"` returns true before any
class manipulation; otherwise the trimmed value is tested and the
`"error"` class is set on invalidity and cleared on validity.  Returns
the validity together with the updated field. -/
def validateField (f : FormField) : Bool × FormField :=
  if f.name = "subject" then (true, f)
  else
    let ok := fieldPatternTest f.name (trimJS f.value) f.required
    (ok, { f with errorClass := !ok })

/-- The `forEach` body of `validateForm` (lines 346–350): validate the
field (with its side effect on the error class) and clear the
accumulated flag if it failed. -/
def vfStep (acc : Bool × List FormField) (f : FormField) :
    Bool × List FormField :=
  (acc.1 && (validateField f).1, acc.2 ++ [(validateField f).2])

/-- Source `validateForm` (lines 342–353): validate every field unconditionally
(no short-circuit), returning the conjunction of validities and the
updated fields. -/
def validateForm (fs : List FormField) : Bool × List FormField :=
  fs.foldl vfStep (true, [])

structure SubmitOutcome where
  fields : List FormField
  focusedField : Option String
  loading : Bool
  submitDisabled : Bool
  submissionStarted : Bool
deriving DecidableEq, Repr

/-- The submit handler (lines 366–378): revalidate the whole form; when
invalid, focus the first field carrying the `"error"` class
(`form.querySelector('.error')`) and return without entering the
loading state, disabling the submit control, or starting the simulated
submission; when valid, enter the loading state, disable the control
and start the submission. -/
def submitHandler (fs : List FormField) : SubmitOutcome :=
  let r := validateForm fs
  if !r.1 then
    { fields := r.2
      focusedField := (r.2.find? fun f => f.errorClass).map fun f => f.name
      loading := false
      submitDisabled := false
      submissionStarted := false }
  else
    { fields := r.2
      focusedField := none
      loading := true
      submitDisabled := true
      submissionStarted := true }

theorem vfStep_fold (fs : List FormField) (b : Bool) (l : List FormField) :
    fs.foldl vfStep (b, l) =
      (b && fs.all (fun f => (validateField f).1),
        l ++ fs.map fun f => (validateField f).2) := by
  induction fs generalizing b l with
  | nil => simp
  | cons f rest ih =>
      rw [List.foldl_cons]
      have hstep : vfStep (b, l) f =
          (b && (validateField f).1, l ++ [(validateField f).2]) := rfl
      rw [hstep, ih]
      simp [Bool.and_assoc]

theorem validateForm_fst (fs : List FormField) :
    (validateForm fs).1 = fs.all fun f => (validateField f).1 := by
  unfold validateForm
  rw [vfStep_fold]
  simp

theorem validateForm_snd (fs : List FormField) :
    (validateForm fs).2 = fs.map fun f => (validateField f).2 := by
  unfold validateForm
  rw [vfStep_fold]
  simp

theorem validateField_subject (f : FormField) (h : f.name = "subject") :
    (validateField f).1 = true := by
  unfold validateField
  rw [if_pos h]

theorem validateField_invalid_marks_error (f : FormField)
    (h : (validateField f).1 = false) :
    (validateField f).2.errorClass = true := by
  unfold validateField at *
  by_cases hs : f.name = "subject"
  · rw [if_pos hs] at h
    exact absurd h (by simp)
  · rw [if_neg hs] at h ⊢
    simp only at h ⊢
    rw [h]
    rfl

/-- Claim C7: on submit, the whole form is revalidated; if any field is
invalid, the submission aborts — the loading state is never entered, the
submit control stays enabled, no simulated submission starts — and the
first field carrying the error state (which exists) receives focus. -/
theorem submit_invalid_aborts (fs : List FormField)
    (h : ∃ f ∈ fs, (validateField f).1 = false) :
    (submitHandler fs).loading = false ∧
    (submitHandler fs).submitDisabled = false ∧
    (submitHandler fs).submissionStarted = false ∧
    ((submitHandler fs).fields.find? fun f => f.errorClass).isSome = true ∧
    (submitHandler fs).focusedField =
      (((submitHandler fs).fields.find? fun f => f.errorClass).map
        fun f => f.name) := by
  obtain ⟨f, hf, hbad⟩ := h
  have hform : (validateForm fs).1 = false := by
    rw [validateForm_fst]
    rw [List.all_eq_false]
    exact ⟨f, hf, by simp [hbad]⟩
  have hout : submitHandler fs =
      { fields := (validateForm fs).2
        focusedField := ((validateForm fs).2.find? fun f => f.errorClass).map
          fun f => f.name
        loading := false
        submitDisabled := false
        submissionStarted := false } := by
    simp [submitHandler, hform]
  have hsome : ((validateForm fs).2.find? fun f => f.errorClass).isSome = true := by
    rw [List.find?_isSome]
    refine ⟨(validateField f).2, ?_, validateField_invalid_marks_error f hbad⟩
    rw [validateForm_snd]
    exact List.mem_map_of_mem _ hf
  rw [hout]
  exact ⟨rfl, rfl, rfl, hsome, rfl⟩

/-- Witness for C7: submitting with email `"not-an-email"` aborts — no
loading state, submit enabled, no submission started — and the first
errored field (the email field) is focused. -/
theorem submit_invalid_aborts_witness :
    (submitHandler [⟨"name", "Mario Rossi".toList, true, false⟩,
        ⟨"email", "not-an-email".toList, true, false⟩,
        ⟨"message", "A fine message here.".toList, true, false⟩]).loading
      = false ∧
    (submitHandler [⟨"name", "Mario Rossi".toList, true, false⟩,
        ⟨"email", "not-an-email".toList, true, false⟩,
        ⟨"message", "A fine message here.".toList, true, false⟩]).submitDisabled
      = false ∧
    (submitHandler [⟨"name", "Mario Rossi".toList, true, false⟩,
        ⟨"email", "not-an-email".toList, true, false⟩,
        ⟨"message", "A fine message here.".toList, true, false⟩]).submissionStarted
      = false ∧
    ((submitHandler [⟨"name", "Mario Rossi".toList, true, false⟩,
        ⟨"email", "not-an-email".toList, true, false⟩,
        ⟨"message", "A fine message here.".toList, true, false⟩]).fields.find?
      fun f => f.errorClass).isSome = true ∧
    (submitHandler [⟨"name", "Mario Rossi".toList, true, false⟩,
        ⟨"email", "not-an-email".toList, true, false⟩,
        ⟨"message", "A fine message here.".toList, true, false⟩]).focusedField =
      (((submitHandler [⟨"name", "Mario Rossi".toList, true, false⟩,
        ⟨"email", "not-an-email".toList, true, false⟩,
        ⟨"message", "A fine message here.".toList, true, false⟩]).fields.find?
          fun f => f.errorClass).map fun f => f.name) :=
  submit_invalid_aborts [⟨"name", "Mario Rossi".toList, true, false⟩,
    ⟨"email", "not-an-email".toList, true, false⟩,
    ⟨"message", "A fine message here.".toList, true, false⟩]
    ⟨⟨"email", "not-an-email".toList, true, false⟩, by decide, by decide⟩

/-! ## Claim C2: the name field

The spec reads the class `[a-zA-ZÀ-ÿ\s]` as "letters or spaces
(including accented Latin letters)".  `specLetterOrSpace` renders the
spec's words: an ASCII letter, an accented Latin-1 letter — the range
U+00C0–U+00FF minus the two non-letters × (U+00D7) and ÷ (U+00F7) — or
the space character.  The code's class additionally accepts × and ÷ and
every ECMAScript whitespace character, so the two sets differ.  -/

def specLetterOrSpace (c : Char) : Bool :=
  (97 ≤ c.toNat && c.toNat ≤ 122) || (65 ≤ c.toNat && c.toNat ≤ 90) ||
  (192 ≤ c.toNat && c.toNat ≤ 255 && !(c.toNat = 215) && !(c.toNat = 247)) ||
  c = ' '

/-- The set the spec describes for the name field: 2–50 letters or
spaces. -/
def specNameOk (cs : List Char) : Bool :=
  decide (2 ≤ cs.length) && decide (cs.length ≤ 50) &&
  cs.all specLetterOrSpace

/-- Claim C2 counterexample: the two-character string `"××"` (twice the
multiplication sign U+00D7) is not a string of letters and spaces, yet
`validateField` on the name field accepts it — U+00D7 falls inside the
regex range `À-ÿ`. -/
theorem validateField_name_counterexample :
    (validateField ⟨"name", "××".toList, true, false⟩).1 = true ∧
    specNameOk (trimJS "××".toList) = false := by
  decide

/-- Claim C2 as amended: `validateField` on the field named `"name"`
accepts (after trimming) exactly the strings of 2 to 50 characters each
of which is an ASCII letter, any character in the range U+00C0–U+00FF
(the accented Latin-1 letters together with × and ÷), or an ECMAScript
whitespace character — not only letters and the plain space. -/
theorem validateField_name_characterization (v : List Char)
    (required errC : Bool) :
    (validateField ⟨"name", v, required, errC⟩).1 = true ↔
      (2 ≤ (trimJS v).length ∧ (trimJS v).length ≤ 50 ∧
        ∀ c ∈ trimJS v,
          ((97 ≤ c.toNat ∧ c.toNat ≤ 122) ∨ (65 ≤ c.toNat ∧ c.toNat ≤ 90) ∨
            (192 ≤ c.toNat ∧ c.toNat ≤ 255) ∨ isJSSpace c = true)) := by
  have hname : (validateField ⟨"name", v, required, errC⟩).1 =
      matchName (trimJS v) := by
    simp [validateField, fieldPatternTest]
  rw [hname]
  unfold matchName
  simp only [Bool.and_eq_true, decide_eq_true_eq, List.all_eq_true,
    and_assoc]
  constructor
  · rintro ⟨h1, h2, h3⟩
    refine ⟨h1, h2, fun c hc => ?_⟩
    have := h3 c hc
    unfold isNameChar at this
    simp only [Bool.or_eq_true, Bool.and_eq_true, decide_eq_true_eq] at this
    tauto
  · rintro ⟨h1, h2, h3⟩
    refine ⟨h1, h2, fun c hc => ?_⟩
    have := h3 c hc
    unfold isNameChar
    simp only [Bool.or_eq_true, Bool.and_eq_true, decide_eq_true_eq]
    tauto

/-! ## Statistics counter (`initStatsCounter`, lines 256–274) and NaN

`initStatsCounter` reads `parseInt(entry.target.getAttribute('data-count'), 10)`
with no guard and calls `animateCount` with the result.  When the
attribute is absent, `getAttribute` returns `null`, which `parseInt`
coerces to the string `"null"`; when the attribute (or `"null"`) has no
leading decimal digits after optional whitespace and sign, `parseInt`
yields `NaN`.  A JavaScript number is modelled as `Option ℚ` with
`none` for `NaN`; arithmetic propagates `NaN`, and assigning a number
to `textContent` renders `NaN` as the string `"NaN"`.  -/

abbrev JSNum := Option ℚ

def jsNumAdd (a b : JSNum) : JSNum :=
  match a, b with
  | some x, some y => some (x + y)
  | _, _ => none

def jsNumSub (a b : JSNum) : JSNum :=
  match a, b with
  | some x, some y => some (x - y)
  | _, _ => none

def jsNumMul (a b : JSNum) : JSNum :=
  match a, b with
  | some x, some y => some (x * y)
  | _, _ => none

/-- Floor, `Math.floor`: NaN propagates. -/
def jsNumFloor (a : JSNum) : JSNum :=
  a.map fun q => (⌊q⌋ : ℚ)

/-- Number-to-string conversion used by the `textContent` assignment. -/
def jsNumToDisplay : JSNum → String
  | none => "NaN"
  | some q => toString q

def jsIntNum (t : Option Int) : JSNum :=
  t.map fun z => (z : ℚ)

def digitsValue (ds : List Char) : Nat :=
  ds.foldl (fun n c => 10 * n + (c.toNat - 48)) 0

def parseDigits (cs : List Char) : Option Nat :=
  let ds := cs.takeWhile isAsciiDigit
  if ds.isEmpty then none else some (digitsValue ds)

/-- Parsing, `parseInt(s, 10)`: skip leading whitespace, take an optional sign and
then the longest run of decimal digits; no digits means `NaN` (`none`). -/
def parseIntJS (s : List Char) : Option Int :=
  match s.dropWhile isJSSpace with
  | '-' :: rest => (parseDigits rest).map fun n => -(n : Int)
  | '+' :: rest => (parseDigits rest).map fun n => (n : Int)
  | other => (parseDigits other).map fun n => (n : Int)

/-- The target read on line 262: an absent `data-count` attribute reaches
`parseInt` as the string `"null"`. -/
def statTargetOf (dataCount : Option (List Char)) : Option Int :=
  match dataCount with
  | none => parseIntJS "null".toList
  | some s => parseIntJS s

structure StatEntry where
  dataCount : Option (List Char)
  isIntersecting : Bool
deriving DecidableEq, Repr

/-- The stats observer callback body (lines 260–266): on intersection,
parse the attribute and start the count animation with the result —
unconditionally; `some t` means an animation was started with target
`t`, `none` that nothing was started. -/
def statsEntryAnimation (e : StatEntry) : Option (Option Int) :=
  if e.isIntersecting then some (statTargetOf e.dataCount) else none

/-- One frame of `updateCount` (lines 86–101) with a possibly-NaN target:
the element's text after the frame's handler returns.  The progress and
easing arithmetic involve only the (real) timestamps and the 2000ms
duration; the target enters through `(target - start) * easeProgress`
and the final-frame assignment, so a NaN target propagates to every
write. -/
def jsFrameText (target : Option Int) (elapsed : ℚ) : String :=
  let progress := min (elapsed / countAnimationDuration) 1
  let easeProgress := 1 - (1 - progress) ^ 3
  let current := jsNumFloor (jsNumAdd (some 0)
    (jsNumMul (jsNumSub (jsIntNum target) (some 0)) (some easeProgress)))
  if progress < 1 then jsNumToDisplay current
  else jsNumToDisplay (jsIntNum target)

/-- Claim C10: `initStatsCounter` applies no guard to `data-count`: when
the attribute is absent or does not parse as an integer, `parseInt`
yields `NaN`, the count animation still starts, and every frame — the
final one included — writes the text `"NaN"` to the element instead of
skipping it or raising an error. -/
theorem statsCounter_nan_unguarded (attr : Option (List Char))
    (h : statTargetOf attr = none) (elapsed : ℚ) :
    statsEntryAnimation ⟨attr, true⟩ = some none ∧
    jsFrameText (statTargetOf attr) elapsed = "NaN" := by
  constructor
  · unfold statsEntryAnimation
    rw [if_pos rfl, h]
  · rw [h]
    simp [jsFrameText, jsIntNum, jsNumSub, jsNumMul, jsNumAdd, jsNumFloor,
      jsNumToDisplay]

/-- Witness for C10: with the attribute absent (test past the 2000ms
duration, the final frame) and with the unparsable attribute `"abc"`
(an early frame), the animation starts with target `NaN` and the frame
writes `"NaN"`. -/
theorem statsCounter_nan_unguarded_witness :
    (statsEntryAnimation ⟨none, true⟩ = some none ∧
      jsFrameText (statTargetOf none) 2500 = "NaN") ∧
    (statsEntryAnimation ⟨some "abc".toList, true⟩ = some none ∧
      jsFrameText (statTargetOf (some "abc".toList)) 100 = "NaN") :=
  ⟨statsCounter_nan_unguarded none (by rfl) 2500,
   statsCounter_nan_unguarded (some "abc".toList) (by rfl) 100⟩

end Wanderlight
